import Mathlib

/-!
Shallow embedding of the `advmdata` package core (`advmdata/__init__.py`,
a.k.a. `advmdata.core`, together with the per-instrument subclasses in
`nortek.py`, `ezq.py`, `argonaut.py`, `sontek.py`).

Python scalar values that flow through the configuration store are modelled by
`Value`: Python `float` becomes `Value.floatv` over `ℚ` (with the `nan`
sentinel split out as its own constructor, since the only float semantics the
core relies on are `nan == x` being false and `c <= nan` being false),
Python `int` becomes `Value.intv`, strings become `Value.strv`.
Dictionaries become ordered association lists.  Raising becomes `Except Err`.
-/

namespace Advm

/-- Scalar values stored in an ADVM configuration dictionary. -/
inductive Value where
  | nan : Value
  | intv (n : ℤ) : Value
  | floatv (q : ℚ) : Value
  | strv (s : String) : Value
deriving DecidableEq, Repr

/-- Error kinds raised by the embedded code: `KeyError`, `ValueError`,
`TypeError`, `ADVMDataIncompatibleError`, and the concurrent-observation
error raised by the merge collaborator. -/
inductive Err where
  | keyError (k : String) : Err
  | valueError : Err
  | typeError : Err
  | incompatible : Err
  | ambiguousMerge : Err
deriving DecidableEq, Repr

/-- Python `==` on the stored scalars: `nan` compares unequal to everything
(including itself), ints and floats compare by numeric value, strings compare
by content, and a number never equals a string. -/
def valueEq : Value → Value → Bool
  | .nan, _ => false
  | _, .nan => false
  | .intv a, .intv b => a == b
  | .intv a, .floatv q => (a : ℚ) == q
  | .floatv q, .intv a => q == (a : ℚ)
  | .floatv a, .floatv b => a == b
  | .strv a, .strv b => a == b
  | .intv _, .strv _ => false
  | .floatv _, .strv _ => false
  | .strv _, .intv _ => false
  | .strv _, .floatv _ => false

/-- Python `c <= value` for a numeric literal `c`: comparing against `nan`
is false, comparing against a string raises `TypeError`. -/
def leVal (c : ℚ) : Value → Except Err Bool
  | .nan => .ok false
  | .intv n => .ok (decide (c ≤ (n : ℚ)))
  | .floatv q => .ok (decide (c ≤ q))
  | .strv _ => .error .typeError

/-- Python `isinstance(value, int)`; `nan` is a float, not an int. -/
def isIntVal : Value → Bool
  | .intv _ => true
  | _ => false

/-- Python `isinstance(value, (int, float))`; `nan` is a float. -/
def isNumVal : Value → Bool
  | .intv _ => true
  | .floatv _ => true
  | .nan => true
  | .strv _ => false

/-- Whether the value is a Python string. -/
def isStrVal : Value → Bool
  | .strv _ => true
  | _ => false

/-- A Python dict as an ordered association list (insertion order kept). -/
abbrev Dict := List (String × Value)

/-- The fixed key list of `ADVMConfigParam.__init__` (`valid_keys`). -/
def validKeys : List String :=
  ["Frequency", "Effective Transducer Diameter", "Beam Orientation", "Slant Angle",
   "Blanking Distance", "Cell Size", "Number of Cells", "Number of Beams"]

/-- `ADVMConfigParam.__init__`: every valid key bound to the `nan` sentinel. -/
def initialConfig : Dict := validKeys.map (fun k => (k, Value.nan))

/-- Raw dict lookup, as an observation on the state. -/
def lookupVal (d : Dict) (k : String) : Option Value :=
  (d.find? (fun p => p.1 == k)).map (fun p => p.2)

/-- The key view `self._dict.keys()`. -/
def keysOf (d : Dict) : List String := d.map (fun p => p.1)

/-- `ADVMParam.__getitem__`: `self._dict[key]`, raising `KeyError` when the
key is absent. -/
def dictGet (d : Dict) (k : String) : Except Err Value :=
  match lookupVal d k with
  | some v => .ok v
  | none => .error (.keyError k)

/-- Python dict assignment `self._dict[key] = value`: overwrite in place if
the key is present, append at the end otherwise. -/
def dictSet : Dict → String → Value → Dict
  | [], k, v => [(k, v)]
  | (k', v') :: rest, k, v =>
      if k' == k then (k, v) :: rest else (k', v') :: dictSet rest k v

/-- `ADVMParam._check_key`: raise `KeyError` if the key is not in the dict. -/
def checkKey (d : Dict) (k : String) : Except Err Unit :=
  if (keysOf d).contains k then .ok () else .error (.keyError k)

/-- The `other_keys` list of `ADVMConfigParam._check_value`. -/
def otherKeys : List String :=
  ["Frequency", "Effective Transducer Diameter", "Slant Angle", "Blanking Distance", "Cell Size"]

/-- Guard `value == "Horizontal" or value == "Vertical"` of `_check_value`. -/
def checkOrientation (v : Value) : Except Err Unit :=
  if valueEq v (.strv "Horizontal") || valueEq v (.strv "Vertical") then .ok ()
  else .error .valueError

/-- Guard `c <= value and isinstance(value, int)` of `_check_value`
(`c = 1` for "Number of Cells", `c = 0` for "Number of Beams"); the ordering
comparison is evaluated first and may raise `TypeError`. -/
def checkIntGE (c : ℚ) (v : Value) : Except Err Unit := do
  let b ← leVal c v
  if b && isIntVal v then .ok () else .error .valueError

/-- Guard `0 <= value and isinstance(value, (int, float))` of `_check_value`. -/
def checkNumGE0 (v : Value) : Except Err Unit := do
  let b ← leVal 0 v
  if b && isNumVal v then .ok () else .error .valueError

/-- `ADVMConfigParam._check_value`.  The Python `elif` chain is guarded by
mutually exclusive key tests, so it flattens to one branch per key; a failed
value test inside a taken key guard falls through every remaining `elif`
(whose key tests are false) to the `ValueError` arm, exactly as encoded by
the per-branch helpers. -/
def checkValue (d : Dict) (k : String) (v : Value) : Except Err Unit := do
  checkKey d k
  if k == "Beam Orientation" then checkOrientation v
  else if k == "Number of Cells" then checkIntGE 1 v
  else if k == "Number of Beams" then checkIntGE 0 v
  else if otherKeys.contains k then checkNumGE0 v
  else .error .valueError

/-- `ADVMParam.__setitem__`: validate, then store. -/
def setItem (d : Dict) (k : String) (v : Value) : Except Err Dict := do
  checkValue d k v
  .ok (dictSet d k v)

/-- `ADVMParam.update`: apply the entries in order, validating each one and
storing it; the first failure aborts, leaving earlier entries applied.  The
result is the final dict state paired with the raised error, if any. -/
def updateConfig : Dict → List (String × Value) → Dict × Option Err
  | d, [] => (d, none)
  | d, (k, v) :: rest =>
      match checkValue d k v with
      | .error e => (d, some e)
      | .ok _ => updateConfig (dictSet d k v) rest

/-- Unchecked sequential application of entries (used to describe the state
`update` leaves behind). -/
def applyEntries (d : Dict) (l : List (String × Value)) : Dict :=
  l.foldl (fun d p => dictSet d p.1 p.2) d

/-- The `keys_to_check` list of `ADVMConfigParam.is_compatible`. -/
def keysToCheck : List String :=
  ["Frequency", "Slant Angle", "Blanking Distance", "Cell Size", "Number of Cells"]

/-- Loop body of `ADVMConfigParam.is_compatible`: walk the keys, indexing
both dicts, and stop with `False` at the first pair that does not compare
equal. -/
def isCompatibleAux (a b : Dict) : List String → Except Err Bool
  | [] => .ok true
  | k :: ks => do
      let x ← dictGet a k
      let y ← dictGet b k
      if !(valueEq x y) then .ok false else isCompatibleAux a b ks

/-- `ADVMConfigParam.is_compatible`. -/
def isCompatible (a b : Dict) : Except Err Bool := isCompatibleAux a b keysToCheck

/-- Python `==` lifted to optional values: both present and comparing
equal. -/
def optValEq (ox oy : Option Value) : Bool :=
  match ox, oy with
  | some x, some y => valueEq x y
  | _, _ => false

/-- Boolean observation of `is_compatible` on well-formed stores: every
checked key is present on both sides and the values compare equal. -/
def compatB (a b : Dict) : Bool :=
  keysToCheck.all (fun k => optValEq (lookupVal a k) (lookupVal b k))

/-- Well-formedness of a configuration store: its key list is exactly the
fixed `valid_keys` list. -/
def WF (d : Dict) : Prop := keysOf d = validKeys

instance : DecidablePred WF := fun d => by
  unfold WF
  infer_instance

/-- Per-key validation predicate as the specification states it:
"Beam Orientation" ∈ {Horizontal, Vertical}; "Number of Cells" a positive
integer; "Number of Beams" a non-negative integer; the numeric physical
parameters numeric and ≥ 0. -/
def validValue (k : String) (v : Value) : Bool :=
  if k == "Beam Orientation" then
    match v with
    | .strv s => s == "Horizontal" || s == "Vertical"
    | _ => false
  else if k == "Number of Cells" then
    match v with
    | .intv n => decide (1 ≤ n)
    | _ => false
  else if k == "Number of Beams" then
    match v with
    | .intv n => decide (0 ≤ n)
    | _ => false
  else if otherKeys.contains k then
    match v with
    | .intv n => decide (0 ≤ n)
    | .floatv q => decide (0 ≤ q)
    | _ => false
  else false

/-- Operations a caller can perform on an `ADVMConfigParam` instance. -/
inductive ConfigOp where
  | getOp (k : String) : ConfigOp
  | setOp (k : String) (v : Value) : ConfigOp
  | updateOp (l : List (String × Value)) : ConfigOp

/-- State reached after one operation: reads do not change the store, and a
failing `set` leaves it untouched; a failing `update` keeps the entries it
already applied. -/
def stepConfig (d : Dict) : ConfigOp → Dict
  | .getOp _ => d
  | .setOp k v =>
      match setItem d k v with
      | .ok d' => d'
      | .error _ => d
  | .updateOp l => (updateConfig d l).1

/-- State reached after a sequence of operations. -/
def runConfig (d : Dict) : List ConfigOp → Dict
  | [] => d
  | op :: ops => runConfig (stepConfig d op) ops

/-- Concrete instrument classes of the package: `NortekADVMData` and its
subclasses `EzqADVMData` and `AquadoppADVMData`, plus `ArgonautADVMData`
and `SL3GADVMData`, which derive directly from the abstract base. -/
inductive Family where
  | nortek : Family
  | ezq : Family
  | aquadopp : Family
  | argonaut : Family
  | sl3g : Family
deriving DecidableEq, Repr

/-- Python `isinstance(other, type(self))`: true when `other`'s concrete
class equals `self`'s concrete class or is one of its subclasses (`Ezq` and
`Aquadopp` are the subclasses of `Nortek`). -/
def isInstanceOf (other self : Family) : Bool :=
  other == self || (self == .nortek && (other == .ezq || other == .aquadopp))

/-- Modelled from the spec: the `DataManager` collaborator of the external
`linearmodel` package (its source is not part of this repository) as
described by the TabularDataset contract of the specification — a
timestamp-indexed table of named numeric variables plus a provenance
relation of (variable, origin) rows.  A table is represented by its set of
cells: one `(timestamp, variable, value)` triple per observation. -/
structure DataManager where
  cells : List (ℕ × String × ℚ)
  origin : List (String × String)
deriving DecidableEq, Repr

/-- Whether the table holds a value at the given (timestamp, variable) pair. -/
def hasCell (d : DataManager) (t : ℕ) (v : String) : Bool :=
  d.cells.any (fun c => c.1 == t && c.2.1 == v)

/-- Value held at a (timestamp, variable) pair, if any. -/
def lookupCell (d : DataManager) (t : ℕ) (v : String) : Option ℚ :=
  (d.cells.find? (fun c => c.1 == t && c.2.1 == v)).map (fun c => c.2.2)

/-- Timestamps of the table's rows. -/
def tsOf (d : DataManager) : List ℕ := d.cells.map (fun c => c.1)

/-- The (timestamp, variable) pairs at which both tables hold a value. -/
def conflictKeys (a b : DataManager) : List (ℕ × String) :=
  (a.cells.map (fun c => (c.1, c.2.1))).filter (fun k => hasCell b k.1 k.2)

/-- Modelled from the spec: `DataManager.add_data_manager` of the external
`linearmodel` package, per the TabularDataset append contract — row union by
timestamp and column union by variable; at a (timestamp, variable) pair held
by both sides, `keep_curr_obs=True` keeps self's value and
`keep_curr_obs=False` keeps other's, while `keep_curr_obs=None` with any
such shared pair raises the concurrent-observation error; the merged
provenance is the row-wise union of both provenance relations. -/
def addDataManager (a b : DataManager) (keepCurrObs : Option Bool) :
    Except Err DataManager :=
  match keepCurrObs with
  | none =>
      if (conflictKeys a b).isEmpty then
        .ok ⟨a.cells ++ b.cells.filter (fun c => !hasCell a c.1 c.2.1),
             a.origin ++ b.origin⟩
      else .error .ambiguousMerge
  | some true =>
      .ok ⟨a.cells ++ b.cells.filter (fun c => !hasCell a c.1 c.2.1),
           a.origin ++ b.origin⟩
  | some false =>
      .ok ⟨a.cells.filter (fun c => !hasCell b c.1 c.2.1) ++ b.cells,
           a.origin ++ b.origin⟩

/-- Full match against `ADVMData._advm_columns_regex`, which is the string
`^(Temp|Vbeam|Cell\d\x7b2\x7d(Amp|SNR)\d\x7b1\x7d)$`: the literal column
names `Temp` and `Vbeam`, or `Cell`, two digits, `Amp` or `SNR`, one digit. -/
def matchesAdvmColumn (s : String) : Bool :=
  s == "Temp" || s == "Vbeam" ||
    (match s.toList with
     | 'C' :: 'e' :: 'l' :: 'l' :: d1 :: d2 :: rest =>
         d1.isDigit && d2.isDigit &&
           (match rest with
            | ['A', 'm', 'p', d3] => d3.isDigit
            | ['S', 'N', 'R', d3] => d3.isDigit
            | _ => false)
     | _ => false)

/-- The acoustic-column pattern as the specification words it: `Temp`,
`Vbeam` or `Vertical Beam`, and per-cell columns
`Cell\d\d(Amp|SNR|Vx|Vy)\d`.  Stated only to compare against the pattern
the code actually uses. -/
def matchesAdvmColumnSpec (s : String) : Bool :=
  s == "Temp" || s == "Vbeam" || s == "Vertical Beam" ||
    (match s.toList with
     | 'C' :: 'e' :: 'l' :: 'l' :: d1 :: d2 :: rest =>
         d1.isDigit && d2.isDigit &&
           (match rest with
            | ['A', 'm', 'p', d3] => d3.isDigit
            | ['S', 'N', 'R', d3] => d3.isDigit
            | ['V', 'x', d3] => d3.isDigit
            | ['V', 'y', d3] => d3.isDigit
            | _ => false)
     | _ => false)

/-- A container: concrete instrument class, configuration snapshot, and the
acoustic data manager. -/
structure ADVMData where
  family : Family
  config : Dict
  dm : DataManager
deriving DecidableEq, Repr

/-- `ADVMData.__init__`: deep-copies the configuration (value semantics) and
keeps only the dataset columns — and the provenance rows whose variable —
fully match the acoustic column pattern. -/
def mkADVMData (fam : Family) (dm : DataManager) (cfg : Dict) : ADVMData :=
  { family := fam
    config := cfg
    dm := { cells := dm.cells.filter (fun c => matchesAdvmColumn c.2.1)
            origin := dm.origin.filter (fun o => matchesAdvmColumn o.1) } }

/-- `ADVMData.add_data`: raise the incompatible-data error when the
configurations are not compatible and `other` is an instance of `self`'s
concrete class; otherwise merge the two data managers under the duplicate
policy and wrap the result, with `self`'s class and configuration, through
the constructor. -/
def addData (self other : ADVMData) (keepCurrObs : Option Bool) :
    Except Err ADVMData := do
  let compat ← isCompatible self.config other.config
  if !compat && isInstanceOf other.family self.family then
    .error .incompatible
  else do
    let combined ← addDataManager self.dm other.dm keepCurrObs
    .ok (mkADVMData self.family combined self.config)

/-- All of a data manager's variables match the acoustic column pattern
(an invariant of every container built through the constructor). -/
def FilteredDM (d : DataManager) : Prop :=
  ∀ c ∈ d.cells, matchesAdvmColumn c.2.1 = true

instance : DecidablePred FilteredDM := fun d => by
  unfold FilteredDM
  infer_instance

/-- Number of rows of the timestamp-indexed table (`shape[0]`): one row per
distinct timestamp. -/
def numRowsOf (d : DataManager) : ℕ := (tsOf d).dedup.length

/-- `np.linspace(a, b, num)` with its endpoint-inclusive step
`(b - a) / (num - 1)`; for `num = 1` the step factor is multiplied by zero,
giving `[a]` just as numpy does. -/
def linspace (a b : ℚ) (num : ℕ) : List ℚ :=
  (List.range num).map (fun (i : ℕ) => a + (i : ℚ) * ((b - a) / ((num : ℚ) - 1)))

/-- Column labels `['R{:03}'.format(cell) for cell in range(1, n + 1)]`. -/
def rName (i : ℕ) : String :=
  "R" ++ (if i < 10 then "00" else if i < 100 then "0" else "") ++ toString i

/-- The cell-range column list `R001 .. R{n}`. -/
def colNames (n : ℕ) : List String := (List.range n).map (fun i => rName (i + 1))

/-- `NortekADVMData._calc_cell_range` (`nortek.py`): first cell midpoint at
`blanking_distance + cell_size / 2`, one identical row per data row. -/
def nortekCalcCellRange (b s : ℚ) (n rows : ℕ) : List String × List (List ℚ) :=
  let first := b + s / 2
  let last := first + ((n : ℚ) - 1) * s
  (colNames n, List.replicate rows (linspace first last n))

/-- `EzqADVMData._calc_cell_range` (`ezq.py`): same formula as the Nortek
base, first cell midpoint at `blanking_distance + cell_size / 2`. -/
def ezqCalcCellRange (b s : ℚ) (n rows : ℕ) : List String × List (List ℚ) :=
  let first := b + s / 2
  let last := first + ((n : ℚ) - 1) * s
  (colNames n, List.replicate rows (linspace first last n))

/-- `AquadoppADVMData._calc_cell_range` (`ezq.py`): first cell midpoint at
`blanking_distance + cell_size`. -/
def aquadoppCalcCellRange (b s : ℚ) (n rows : ℕ) : List String × List (List ℚ) :=
  let first := b + s
  let last := first + ((n : ℚ) - 1) * s
  (colNames n, List.replicate rows (linspace first last n))

/-- `ArgonautADVMData._calc_cell_range` (`argonaut.py`): first cell midpoint
at `blanking_distance + cell_size / 2`. -/
def argonautCalcCellRange (b s : ℚ) (n rows : ℕ) : List String × List (List ℚ) :=
  let first := b + s / 2
  let last := first + ((n : ℚ) - 1) * s
  (colNames n, List.replicate rows (linspace first last n))

/-- `SL3GADVMData._calc_cell_range` (`sontek.py`): first cell midpoint at
`blanking_distance + 1.5 * cell_size`. -/
def sl3gCalcCellRange (b s : ℚ) (n rows : ℕ) : List String × List (List ℚ) :=
  let first := b + 1.5 * s
  let last := first + ((n : ℚ) - 1) * s
  (colNames n, List.replicate rows (linspace first last n))

/-- Numeric reading of a stored scalar. -/
def valueToQ : Value → Option ℚ
  | .intv n => some (n : ℚ)
  | .floatv q => some q
  | _ => none

/-- Cell-count reading of a stored scalar (a non-negative Python int). -/
def valueToNat : Value → Option ℕ
  | .intv n => if 0 ≤ n then some n.toNat else none
  | _ => none

/-- `ADVMData.get_cell_range`, dispatching to the concrete class's
`_calc_cell_range`; defined when the three geometry parameters hold numeric
values.  Each formula reads `Blanking Distance`, `Cell Size` and
`Number of Cells` from the configuration and replicates one row per data
row. -/
def containerCellRange (c : ADVMData) : Option (List String × List (List ℚ)) := do
  let b ← (lookupVal c.config "Blanking Distance").bind valueToQ
  let s ← (lookupVal c.config "Cell Size").bind valueToQ
  let n ← (lookupVal c.config "Number of Cells").bind valueToNat
  let rows := numRowsOf c.dm
  some (match c.family with
        | .nortek => nortekCalcCellRange b s n rows
        | .ezq => ezqCalcCellRange b s n rows
        | .aquadopp => aquadoppCalcCellRange b s n rows
        | .argonaut => argonautCalcCellRange b s n rows
        | .sl3g => sl3gCalcCellRange b s n rows)

/-- Per-family first-cell offset factor, as the specification names it. -/
def offsetFactor : Family → ℚ
  | .nortek => 1 / 2
  | .ezq => 1 / 2
  | .aquadopp => 1
  | .argonaut => 1 / 2
  | .sl3g => 3 / 2

/-- Whether an `add_data` call raised the incompatible-data error. -/
def raisesIncompatible (r : Except Err ADVMData) : Bool :=
  match r with
  | .error .incompatible => true
  | _ => false

/-- Concrete configuration: frequency 1500, slant angle 25, blanking
distance 1.0, cell size 1.75, 10 cells. -/
def wCfg1 : Dict :=
  (updateConfig initialConfig
    [("Frequency", .floatv 1500), ("Slant Angle", .floatv 25),
     ("Blanking Distance", .floatv 1), ("Cell Size", .floatv (mkRat 7 4)),
     ("Number of Cells", .intv 10)]).1

/-- Concrete configuration differing from `wCfg1` only in cell size 2.0. -/
def wCfg2 : Dict :=
  (updateConfig initialConfig
    [("Frequency", .floatv 1500), ("Slant Angle", .floatv 25),
     ("Blanking Distance", .floatv 1), ("Cell Size", .floatv 2),
     ("Number of Cells", .intv 10)]).1

/-- Concrete configuration differing from `wCfg1` only in frequency 3000. -/
def wCfg3 : Dict :=
  (updateConfig initialConfig
    [("Frequency", .floatv 3000), ("Slant Angle", .floatv 25),
     ("Blanking Distance", .floatv 1), ("Cell Size", .floatv (mkRat 7 4)),
     ("Number of Cells", .intv 10)]).1

/-- One temperature observation at timestamp 0, value 5. -/
def dmT5 : DataManager := ⟨[(0, "Temp", 5)], [("Temp", "a.dat (SL)")]⟩

/-- One temperature observation at timestamp 0, value 7. -/
def dmT7 : DataManager := ⟨[(0, "Temp", 7)], [("Temp", "b.dat (SL)")]⟩

/-- One temperature observation at timestamp 1, value 9. -/
def dmT9 : DataManager := ⟨[(1, "Temp", 9)], [("Temp", "c.dat (SL)")]⟩

/-- A data manager holding only a per-cell velocity column. -/
def dmVx : DataManager := ⟨[(0, "Cell01Vx1", 1)], [("Cell01Vx1", "f.mat (SL3G)")]⟩

/-- Argonaut container over `wCfg1` with data `dmT5`. -/
def cA1 : ADVMData := ⟨.argonaut, wCfg1, dmT5⟩

/-- Argonaut container over `wCfg2` with data `dmT7`. -/
def cB1 : ADVMData := ⟨.argonaut, wCfg2, dmT7⟩

/-- SL3G container over `wCfg3` with data `dmT9`. -/
def cB2 : ADVMData := ⟨.sl3g, wCfg3, dmT9⟩

/-- Argonaut container over `wCfg1` with data `dmT7`. -/
def cB3 : ADVMData := ⟨.argonaut, wCfg1, dmT7⟩

/-- Argonaut container over `wCfg1` with data `dmT9`. -/
def cB4 : ADVMData := ⟨.argonaut, wCfg1, dmT9⟩

/-- Nortek container over `wCfg1` with data `dmT5`. -/
def cN5 : ADVMData := ⟨.nortek, wCfg1, dmT5⟩

theorem except_bind_ok {α β : Type} (a : α) (f : α → Except Err β) :
    (Except.ok a >>= f) = f a := rfl

theorem except_bind_err {α β : Type} (e : Err) (f : α → Except Err β) :
    ((Except.error e : Except Err α) >>= f) = Except.error e := rfl

theorem lookupVal_isSome_iff (d : Dict) (k : String) :
    (lookupVal d k).isSome ↔ k ∈ keysOf d := by
  simp [lookupVal, keysOf, List.find?_isSome, List.mem_map, beq_iff_eq]

theorem keysOf_dictSet_of_mem (d : Dict) (k : String) (v : Value) (h : k ∈ keysOf d) :
    keysOf (dictSet d k v) = keysOf d := by
  induction d with
  | nil => simp [keysOf] at h
  | cons p rest ih =>
      obtain ⟨k', v'⟩ := p
      by_cases hk : k' == k
      · have hk' : k' = k := by simpa using hk
        subst hk'
        simp [dictSet, keysOf]
      · have hkf : (k' == k) = false := by simpa using hk
        have hne : k' ≠ k := by simpa using hk
        have hmem : k ∈ keysOf rest := by
          simp only [keysOf, List.map_cons, List.mem_cons] at h
          rcases h with h | h
          · exact absurd h.symm hne
          · exact h
        have ihh := ih hmem
        simp only [keysOf, List.map_cons] at ihh ⊢
        simp [dictSet, hkf, ihh]

theorem lookupVal_dictSet_self (d : Dict) (k : String) (v : Value) :
    lookupVal (dictSet d k v) k = some v := by
  induction d with
  | nil => simp [dictSet, lookupVal]
  | cons p rest ih =>
      obtain ⟨k', v'⟩ := p
      by_cases hk : k' == k
      · simp [dictSet, hk, lookupVal]
      · have hkf : (k' == k) = false := by simpa using hk
        simpa [dictSet, hkf, lookupVal, List.find?_cons] using ih

theorem lookupVal_dictSet_ne (d : Dict) (k q : String) (v : Value) (h : q ≠ k) :
    lookupVal (dictSet d k v) q = lookupVal d q := by
  have hkq : (k == q) = false := by simpa using Ne.symm h
  induction d with
  | nil => simp [dictSet, lookupVal, List.find?_cons, hkq]
  | cons p rest ih =>
      obtain ⟨k', v'⟩ := p
      by_cases hk : k' == k
      · have hk' : k' = k := by simpa using hk
        subst hk'
        simp [dictSet, lookupVal, List.find?_cons, hkq]
      · have hkf : (k' == k) = false := by simpa using hk
        by_cases hq : k' == q
        · simp [dictSet, hkf, lookupVal, List.find?_cons, hq]
        · have hqf : (k' == q) = false := by simpa using hq
          simpa [dictSet, hkf, lookupVal, List.find?_cons, hqf] using ih

theorem checkKey_ok (d : Dict) (k : String) (h : k ∈ keysOf d) : checkKey d k = .ok () := by
  simp [checkKey]
  exact h

theorem checkKey_err (d : Dict) (k : String) (h : k ∉ keysOf d) :
    checkKey d k = .error (.keyError k) := by
  cases hcon : (keysOf d).contains k with
  | false =>
      simp [checkKey, hcon]
      exact h
  | true => exact absurd (List.elem_iff.mp hcon) h


theorem decide_one_le_cast (n : ℤ) : decide ((1 : ℚ) ≤ (n : ℚ)) = decide (1 ≤ n) := by
  rw [decide_eq_decide]
  exact_mod_cast Iff.rfl

theorem decide_zero_le_cast (n : ℤ) : decide ((0 : ℚ) ≤ (n : ℚ)) = decide (0 ≤ n) := by
  rw [decide_eq_decide]
  exact_mod_cast Iff.rfl

theorem checkValue_spec (d : Dict) (k : String) (v : Value) (hd : WF d) (hk : k ∈ validKeys) :
    checkValue d k v =
      if validValue k v = true then .ok ()
      else .error (if !(k == "Beam Orientation") && isStrVal v then .typeError
                   else .valueError) := by
  have hkey : checkKey d k = .ok () := checkKey_ok d k (hd ▸ hk)
  have hk' := hk
  simp only [validKeys, List.mem_cons, List.not_mem_nil, or_false] at hk'
  rcases hk' with rfl | rfl | rfl | rfl | rfl | rfl | rfl | rfl <;>
    cases v <;>
      simp [checkValue, hkey, except_bind_ok, except_bind_err, checkOrientation,
        checkIntGE, checkNumGE0, leVal, isIntVal, isNumVal, isStrVal, validValue,
        valueEq, otherKeys, decide_one_le_cast, decide_zero_le_cast]

/-- C7 (amended): for every key of the fixed set, `set(K, v)` stores `v` and
succeeds exactly when the key's validation predicate holds of `v`; otherwise
the store is left unchanged and an error is raised — a `ValueError` in
general, but a `TypeError` when the validator's ordering comparison is
applied to a string value (every key other than "Beam Orientation" compares
`0 <= value` or `1 <= value` first, which Python rejects with `TypeError`
for strings). -/
theorem setItem_validates (d : Dict) (hd : WF d) (k : String) (hk : k ∈ validKeys) (v : Value) :
    (validValue k v = true → setItem d k v = .ok (dictSet d k v)) ∧
    (validValue k v = false →
      setItem d k v =
        .error (if !(k == "Beam Orientation") && isStrVal v then .typeError
                else .valueError)) := by
  constructor <;> intro h <;>
    simp [setItem, checkValue_spec d k v hd hk, h, except_bind_ok, except_bind_err]

/-- Witness for C7's theorem: storing frequency 1500 in a fresh
configuration succeeds. -/
theorem setItem_validates_witness :
    setItem initialConfig "Frequency" (.floatv 1500) =
      .ok (dictSet initialConfig "Frequency" (.floatv 1500)) :=
  (setItem_validates initialConfig (by decide) "Frequency" (by decide) (.floatv 1500)).1
    (by decide)

/-- Counterexample for C7 as stated: setting "Cell Size" to a string raises
`TypeError`, not a `ValueError`-kind error, because `0 <= value` is
evaluated before `isinstance`. -/
theorem setItem_typeerror_cex :
    setItem initialConfig "Cell Size" (.strv "a") = .error .typeError ∧
      Err.typeError ≠ Err.valueError := by
  exact ⟨rfl, by decide⟩

theorem checkValue_err_of_not_key (d : Dict) (k : String) (v : Value) (hd : WF d)
    (h : k ∉ validKeys) : checkValue d k v = .error (.keyError k) := by
  have hkk : checkKey d k = .error (.keyError k) := checkKey_err d k (hd ▸ h)
  simp [checkValue, hkk, except_bind_err]

theorem checkValue_ok_iff (d : Dict) (k : String) (v : Value) (hd : WF d) :
    checkValue d k v = .ok () ↔ (k ∈ validKeys ∧ validValue k v = true) := by
  constructor
  · intro h
    by_cases hk : k ∈ validKeys
    · refine ⟨hk, ?_⟩
      by_contra hvv
      rw [checkValue_spec d k v hd hk] at h
      simp [hvv] at h
    · rw [checkValue_err_of_not_key d k v hd hk] at h
      simp at h
  · rintro ⟨hk, hvv⟩
    rw [checkValue_spec d k v hd hk, if_pos hvv]

theorem WF_dictSet (d : Dict) (k : String) (v : Value) (hd : WF d) (hk : k ∈ validKeys) :
    WF (dictSet d k v) := by
  have : keysOf (dictSet d k v) = keysOf d := keysOf_dictSet_of_mem d k v (hd ▸ hk)
  exact this.trans hd

theorem updateConfig_WF (l : List (String × Value)) :
    ∀ d : Dict, WF d → WF (updateConfig d l).1 := by
  induction l with
  | nil => intro d hd; exact hd
  | cons p rest ih =>
      intro d hd
      obtain ⟨k, v⟩ := p
      cases hcv : checkValue d k v with
      | error e => simpa [updateConfig, hcv] using hd
      | ok u =>
          have hk := ((checkValue_ok_iff d k v hd).mp (by cases u; exact hcv)).1
          simpa [updateConfig, hcv] using ih (dictSet d k v) (WF_dictSet d k v hd hk)

theorem stepConfig_WF (d : Dict) (op : ConfigOp) (hd : WF d) : WF (stepConfig d op) := by
  cases op with
  | getOp k => exact hd
  | setOp k v =>
      cases hres : setItem d k v with
      | error e => simpa [stepConfig, hres] using hd
      | ok d' =>
          have hcv : checkValue d k v = .ok () := by
            cases hcv' : checkValue d k v with
            | error e => simp [setItem, hcv', except_bind_err] at hres
            | ok u => cases u; rfl
          have hd' : d' = dictSet d k v := by
            simp [setItem, hcv, except_bind_ok] at hres
            exact hres.symm
          have hk := ((checkValue_ok_iff d k v hd).mp hcv).1
          simpa [stepConfig, hres, hd'] using WF_dictSet d k v hd hk
  | updateOp l => exact updateConfig_WF l d hd

theorem runConfig_WF (ops : List ConfigOp) : ∀ d : Dict, WF d → WF (runConfig d ops) := by
  induction ops with
  | nil => intro d hd; exact hd
  | cons op rest ih => intro d hd; exact ih (stepConfig d op) (stepConfig_WF d op hd)

/-- C9: the key set of a configuration store reached by any sequence of
get/set/update operations from construction is exactly the eight fixed keys,
and on any well-formed store a get or set of an unknown key raises
`KeyError` (leaving the store untouched, since `set` stores only after its
checks pass). -/
theorem configKeys_invariant :
    (∀ ops : List ConfigOp, keysOf (runConfig initialConfig ops) = validKeys) ∧
    (∀ d : Dict, WF d → ∀ k : String, k ∉ validKeys →
      dictGet d k = .error (.keyError k) ∧
        ∀ v : Value, setItem d k v = .error (.keyError k)) := by
  constructor
  · intro ops
    exact runConfig_WF ops initialConfig (by decide)
  · intro d hd k hk
    have hnone : lookupVal d k = none := by
      have : ¬(lookupVal d k).isSome := by
        rw [lookupVal_isSome_iff, hd]
        exact hk
      simpa [Option.not_isSome_iff_eq_none] using this
    refine ⟨by simp [dictGet, hnone], fun v => ?_⟩
    simp [setItem, checkValue_err_of_not_key d k v hd hk, except_bind_err]

/-- Witness for C9's theorem: a concrete operation sequence keeps the fixed
keys, and the unknown key "Instrument" is rejected by get and set on the
fresh store. -/
theorem configKeys_invariant_witness :
    keysOf (runConfig initialConfig
      [.setOp "Frequency" (.floatv 1500), .updateOp [("Cell Size", .floatv (mkRat 7 4))],
       .setOp "Instrument" (.strv "SL")]) = validKeys ∧
    dictGet initialConfig "Instrument" = .error (.keyError "Instrument") ∧
    setItem initialConfig "Instrument" (.strv "SL") = .error (.keyError "Instrument") := by
  refine ⟨configKeys_invariant.1 _, ?_, ?_⟩
  · exact (configKeys_invariant.2 initialConfig (by decide) "Instrument" (by decide)).1
  · exact (configKeys_invariant.2 initialConfig (by decide) "Instrument" (by decide)).2 (.strv "SL")

/-- C8: `update` applies its entries in mapping order, and the first invalid
entry aborts the batch with an error: the entries strictly before it are
applied and stay applied, while the failing entry and everything after it
are not applied. -/
theorem update_aborts_at_first_invalid :
    ∀ (d : Dict), WF d → ∀ (pre : List (String × Value)) (k : String) (v : Value)
      (post : List (String × Value)),
      (∀ p ∈ pre, p.1 ∈ validKeys ∧ validValue p.1 p.2 = true) →
      ¬(k ∈ validKeys ∧ validValue k v = true) →
      ∃ e, updateConfig d (pre ++ (k, v) :: post) = (applyEntries d pre, some e) := by
  intro d hd pre
  induction pre generalizing d with
  | nil =>
      intro k v post _ hbad
      cases hcv : checkValue d k v with
      | error e => exact ⟨e, by simp [updateConfig, applyEntries, hcv]⟩
      | ok u =>
          cases u
          exact absurd ((checkValue_ok_iff d k v hd).mp hcv) hbad
  | cons p rest ih =>
      intro k v post hpre hbad
      obtain ⟨k', v'⟩ := p
      have hp := hpre (k', v') (List.mem_cons_self _ _)
      have hcv : checkValue d k' v' = .ok () :=
        (checkValue_ok_iff d k' v' hd).mpr hp
      have hd' : WF (dictSet d k' v') := WF_dictSet d k' v' hd hp.1
      obtain ⟨e, he⟩ := ih (dictSet d k' v') hd' k v post
        (fun q hq => hpre q (List.mem_cons_of_mem _ hq)) hbad
      exact ⟨e, by simpa [updateConfig, hcv, applyEntries] using he⟩

/-- Witness for C8's theorem: in a batch whose second entry holds a negative
cell size, the first entry (frequency) is applied and kept, the rest is
dropped, and `update` raises. -/
theorem update_aborts_witness :
    ∃ e, updateConfig initialConfig
        ([("Frequency", .floatv 1500)] ++
          ("Cell Size", .floatv (-1)) :: [("Slant Angle", .floatv 25)]) =
      (applyEntries initialConfig [("Frequency", .floatv 1500)], some e) :=
  update_aborts_at_first_invalid initialConfig (by decide)
    [("Frequency", .floatv 1500)] "Cell Size" (.floatv (-1))
    [("Slant Angle", .floatv 25)] (by decide) (by decide)

theorem validValue_nan (k : String) : validValue k .nan = false := by
  simp [validValue]

theorem lookupVal_updateConfig_ne_nan (l : List (String × Value)) :
    ∀ d : Dict, WF d → ∀ k : String, lookupVal d k ≠ some .nan →
      lookupVal (updateConfig d l).1 k ≠ some .nan := by
  induction l with
  | nil => intro d _ k h; exact h
  | cons p rest ih =>
      intro d hd k h
      obtain ⟨k', v'⟩ := p
      cases hcv : checkValue d k' v' with
      | error e => simpa [updateConfig, hcv] using h
      | ok u =>
          cases u
          have hok := (checkValue_ok_iff d k' v' hd).mp hcv
          have hv' : v' ≠ .nan := by
            intro hv
            rw [hv, validValue_nan] at hok
            exact absurd hok.2 (by simp)
          have hstep : lookupVal (dictSet d k' v') k ≠ some .nan := by
            by_cases hkk : k = k'
            · subst hkk
              rw [lookupVal_dictSet_self]
              simpa using hv'
            · rw [lookupVal_dictSet_ne d k' k v' hkk]
              exact h
          simpa [updateConfig, hcv] using
            ih (dictSet d k' v') (WF_dictSet d k' v' hd hok.1) k hstep

/-- C10: on a well-formed store, `set(key, NaN)` raises `ValueError` for
every key of the fixed set (the `nan` sentinel fails every key's validation
predicate), so once a key holds a non-`nan` value no sequence of
get/set/update operations ever takes it back to the unset sentinel. -/
theorem nan_unreachable :
    (∀ d : Dict, WF d → ∀ k ∈ validKeys, setItem d k .nan = .error .valueError) ∧
    (∀ (d : Dict) (k : String) (ops : List ConfigOp), WF d →
      lookupVal d k ≠ some .nan → lookupVal (runConfig d ops) k ≠ some .nan) := by
  constructor
  · intro d hd k hk
    simp [setItem, checkValue_spec d k .nan hd hk, validValue_nan, isStrVal,
      except_bind_err]
  · intro d k ops
    induction ops generalizing d with
    | nil => intro _ h; exact h
    | cons op rest ih =>
        intro hd h
        have hwf : WF (stepConfig d op) := stepConfig_WF d op hd
        have hstep : lookupVal (stepConfig d op) k ≠ some .nan := by
          cases op with
          | getOp _ => exact h
          | setOp k' v =>
              cases hres : setItem d k' v with
              | error e => simpa [stepConfig, hres] using h
              | ok d' =>
                  have hcv : checkValue d k' v = .ok () := by
                    cases hcv' : checkValue d k' v with
                    | error e => simp [setItem, hcv', except_bind_err] at hres
                    | ok u => cases u; rfl
                  have hd' : d' = dictSet d k' v := by
                    simp [setItem, hcv, except_bind_ok] at hres
                    exact hres.symm
                  have hok := (checkValue_ok_iff d k' v hd).mp hcv
                  have hv : v ≠ .nan := by
                    intro hv
                    rw [hv, validValue_nan] at hok
                    exact absurd hok.2 (by simp)
                  subst hd'
                  by_cases hkk : k = k'
                  · subst hkk
                    simp only [stepConfig, hres]
                    rw [lookupVal_dictSet_self]
                    simpa using hv
                  · simp only [stepConfig, hres]
                    rw [lookupVal_dictSet_ne d k' k v hkk]
                    exact h
          | updateOp l => exact lookupVal_updateConfig_ne_nan l d hd k h
        exact ih (stepConfig d op) hwf hstep

theorem valueEq_nan_left (v : Value) : valueEq .nan v = false := by
  cases v <;> rfl

theorem valueEq_nan_right (v : Value) : valueEq v .nan = false := by
  cases v <;> rfl

theorem valueEq_symm (x y : Value) : valueEq x y = valueEq y x := by
  cases x <;> cases y <;> simp [valueEq, beq_iff_eq, eq_comm]

theorem valueEq_self (v : Value) (h : v ≠ .nan) : valueEq v v = true := by
  cases v <;> simp_all [valueEq]

theorem optValEq_symm (ox oy : Option Value) : optValEq ox oy = optValEq oy ox := by
  cases ox <;> cases oy <;> simp [optValEq, valueEq_symm]

theorem lookupVal_some_of_WF (d : Dict) (k : String) (hd : WF d) (hk : k ∈ validKeys) :
    ∃ x, lookupVal d k = some x :=
  Option.isSome_iff_exists.mp ((lookupVal_isSome_iff d k).mpr (hd ▸ hk))

theorem keysToCheck_sub : ∀ k ∈ keysToCheck, k ∈ validKeys := by decide

theorem isCompatibleAux_eq (a b : Dict) (ks : List String)
    (ha : ∀ k ∈ ks, (lookupVal a k).isSome) (hb : ∀ k ∈ ks, (lookupVal b k).isSome) :
    isCompatibleAux a b ks =
      .ok (ks.all fun k => optValEq (lookupVal a k) (lookupVal b k)) := by
  induction ks with
  | nil => rfl
  | cons k ks ih =>
      obtain ⟨x, hx⟩ := Option.isSome_iff_exists.mp (ha k (List.mem_cons_self _ _))
      obtain ⟨y, hy⟩ := Option.isSome_iff_exists.mp (hb k (List.mem_cons_self _ _))
      simp only [isCompatibleAux, dictGet, hx, hy, except_bind_ok, List.all_cons,
        optValEq]
      cases hvq : valueEq x y with
      | false => simp [hvq]
      | true =>
          simpa [hvq] using
            ih (fun q hq => ha q (List.mem_cons_of_mem _ hq))
              (fun q hq => hb q (List.mem_cons_of_mem _ hq))

theorem all_optValEq_symm (a b : Dict) (ks : List String) :
    (ks.all fun k => optValEq (lookupVal a k) (lookupVal b k)) =
      (ks.all fun k => optValEq (lookupVal b k) (lookupVal a k)) := by
  induction ks with
  | nil => rfl
  | cons k ks ih => simp [List.all_cons, ih, optValEq_symm]

theorem isCompatible_eq_compatB (a b : Dict) (ha : WF a) (hb : WF b) :
    isCompatible a b = .ok (compatB a b) :=
  isCompatibleAux_eq a b keysToCheck
    (fun k hk => (lookupVal_isSome_iff a k).mpr (ha ▸ keysToCheck_sub k hk))
    (fun k hk => (lookupVal_isSome_iff b k).mpr (hb ▸ keysToCheck_sub k hk))

/-- C2: on well-formed stores, `is_compatible` returns (without raising)
exactly the conjunction, over the five checked keys, of Python `==` on the
two stored values — under which the `nan` sentinel is unequal to everything,
itself included.  Consequently the check is symmetric, it is reflexive on a
configuration with none of the five keys unset, it is false whenever any
checked key is unset on either side, and two freshly constructed (all-unset)
configurations are not compatible. -/
theorem isCompatible_spec (a b : Dict) (ha : WF a) (hb : WF b) :
    isCompatible a b = .ok (compatB a b) ∧
    (compatB a b = true ↔ ∀ k ∈ keysToCheck, ∃ x y,
        lookupVal a k = some x ∧ lookupVal b k = some y ∧ valueEq x y = true) ∧
    (∀ v : Value, valueEq .nan v = false ∧ valueEq v .nan = false) ∧
    compatB a b = compatB b a ∧
    ((∀ k ∈ keysToCheck, lookupVal a k ≠ some .nan) → compatB a a = true) ∧
    ((∃ k ∈ keysToCheck, lookupVal a k = some .nan ∨ lookupVal b k = some .nan) →
      compatB a b = false) ∧
    compatB initialConfig initialConfig = false := by
  refine ⟨isCompatible_eq_compatB a b ha hb, ?_, ?_, ?_, ?_, ?_, by decide⟩
  · rw [compatB, List.all_eq_true]
    constructor
    · intro h k hk
      obtain ⟨x, hx⟩ := lookupVal_some_of_WF a k ha (keysToCheck_sub k hk)
      obtain ⟨y, hy⟩ := lookupVal_some_of_WF b k hb (keysToCheck_sub k hk)
      have := h k hk
      rw [hx, hy] at this
      exact ⟨x, y, hx, hy, by simpa [optValEq] using this⟩
    · rintro h k hk
      obtain ⟨x, y, hx, hy, hxy⟩ := h k hk
      rw [hx, hy]
      simpa [optValEq] using hxy
  · exact fun v => ⟨valueEq_nan_left v, valueEq_nan_right v⟩
  · exact all_optValEq_symm a b keysToCheck
  · intro h
    rw [compatB, List.all_eq_true]
    intro k hk
    obtain ⟨x, hx⟩ := lookupVal_some_of_WF a k ha (keysToCheck_sub k hk)
    have hxn : x ≠ .nan := by
      intro hxe
      exact h k hk (hxe ▸ hx)
    rw [hx]
    simpa [optValEq] using valueEq_self x hxn
  · rintro ⟨k, hk, hcase⟩
    cases hc : compatB a b with
    | false => rfl
    | true =>
        have hall := (List.all_eq_true.mp hc) k hk
        rcases hcase with hna | hnb
        · rw [hna] at hall
          cases hob : lookupVal b k <;> simp [optValEq, hob, valueEq_nan_left] at hall
        · rw [hnb] at hall
          cases hoa : lookupVal a k <;> simp [optValEq, hoa, valueEq_nan_right] at hall

/-- Witness for C2's theorem: a fully set configuration is compatible with
itself, and `is_compatible` returns that verdict without raising. -/
theorem isCompatible_spec_witness :
    isCompatible wCfg1 wCfg1 = .ok (compatB wCfg1 wCfg1) ∧ compatB wCfg1 wCfg1 = true := by
  refine ⟨(isCompatible_spec wCfg1 wCfg1 (by decide) (by decide)).1, ?_⟩
  exact (isCompatible_spec wCfg1 wCfg1 (by decide) (by decide)).2.2.2.2.1 (by decide)

/-- Witness for C10's theorem: setting "Cell Size" of a fresh store to `nan`
raises `ValueError`, and a store holding cell size 1.75 never returns to the
sentinel under a concrete operation sequence that tries to. -/
theorem nan_unreachable_witness :
    setItem initialConfig "Cell Size" .nan = .error .valueError ∧
      lookupVal (runConfig (dictSet initialConfig "Cell Size" (.floatv (mkRat 7 4)))
          [.setOp "Cell Size" .nan, .updateOp [("Cell Size", .nan)]])
        "Cell Size" ≠ some .nan := by
  refine ⟨nan_unreachable.1 initialConfig (by decide) "Cell Size" (by decide), ?_⟩
  exact nan_unreachable.2 (dictSet initialConfig "Cell Size" (.floatv (mkRat 7 4)))
    "Cell Size" [.setOp "Cell Size" .nan, .updateOp [("Cell Size", .nan)]]
    (by decide) (by decide)

theorem find?_append_left {α : Type} (l₁ l₂ : List α) (p : α → Bool)
    (h : (l₁.find? p).isSome) : (l₁ ++ l₂).find? p = l₁.find? p := by
  induction l₁ with
  | nil => simp at h
  | cons a l ih =>
      cases hp : p a with
      | true => simp [List.find?_cons, hp]
      | false =>
          rw [List.find?_cons_of_neg _ (by simp [hp])] at h
          simp [List.find?_cons, hp, ih h]

theorem hasCell_iff (d : DataManager) (t : ℕ) (v : String) :
    hasCell d t v = true ↔ ∃ c ∈ d.cells, c.1 = t ∧ c.2.1 = v := by
  simp [hasCell, List.any_eq_true]

theorem mem_tsOf_of_hasCell (d : DataManager) (t : ℕ) (v : String)
    (h : hasCell d t v = true) : t ∈ tsOf d := by
  obtain ⟨c, hc, hct, _⟩ := (hasCell_iff d t v).mp h
  exact List.mem_map.mpr ⟨c, hc, hct⟩

theorem addDataManager_disjoint (a b : DataManager) (p : Option Bool)
    (h : ∀ t ∈ tsOf a, t ∉ tsOf b) :
    addDataManager a b p = .ok ⟨a.cells ++ b.cells, a.origin ++ b.origin⟩ := by
  have hab : ∀ c ∈ b.cells, hasCell a c.1 c.2.1 = false := by
    intro c hc
    cases hcell : hasCell a c.1 c.2.1 with
    | false => rfl
    | true =>
        have h1 : c.1 ∈ tsOf a := mem_tsOf_of_hasCell a c.1 c.2.1 hcell
        have h2 : c.1 ∈ tsOf b := List.mem_map.mpr ⟨c, hc, rfl⟩
        exact absurd h2 (h c.1 h1)
  have hba : ∀ c ∈ a.cells, hasCell b c.1 c.2.1 = false := by
    intro c hc
    cases hcell : hasCell b c.1 c.2.1 with
    | false => rfl
    | true =>
        have h1 : c.1 ∈ tsOf a := List.mem_map.mpr ⟨c, hc, rfl⟩
        exact absurd (mem_tsOf_of_hasCell b c.1 c.2.1 hcell) (h c.1 h1)
  have hfb : b.cells.filter (fun c => !hasCell a c.1 c.2.1) = b.cells :=
    List.filter_eq_self.mpr (fun c hc => by simp [hab c hc])
  have hfa : a.cells.filter (fun c => !hasCell b c.1 c.2.1) = a.cells :=
    List.filter_eq_self.mpr (fun c hc => by simp [hba c hc])
  have hck : conflictKeys a b = [] := by
    refine List.filter_eq_nil_iff.mpr ?_
    intro k hk
    obtain ⟨c, hc, hck⟩ := List.mem_map.mp hk
    subst hck
    simp [hba c hc]
  cases p with
  | none => simp [addDataManager, hck, hfb]
  | some bb => cases bb <;> simp [addDataManager, hfb, hfa]

theorem addDataManager_error_ambiguous (a b : DataManager) (p : Option Bool) (e : Err)
    (h : addDataManager a b p = .error e) : e = .ambiguousMerge := by
  cases p with
  | none =>
      by_cases hc : (conflictKeys a b).isEmpty <;> simp [addDataManager, hc] at h
      exact h.symm
  | some bb => cases bb <;> simp [addDataManager] at h

theorem compatB_symm (a b : Dict) : compatB a b = compatB b a :=
  all_optValEq_symm a b keysToCheck

theorem addData_of_compat (A B : ADVMData) (p : Option Bool)
    (ha : WF A.config) (hb : WF B.config) (hc : compatB A.config B.config = true) :
    addData A B p =
      (addDataManager A.dm B.dm p >>= fun combined =>
        .ok (mkADVMData A.family combined A.config)) := by
  simp [addData, isCompatible_eq_compatB A.config B.config ha hb, except_bind_ok, hc]

/-- C1 (amended): for two containers with well-formed configurations,
`add_data` raises the incompatible-data error exactly when the two
configurations are not compatible AND `other` is an instance of `self`'s
concrete class — in particular, between two containers of the same concrete
family it raises exactly on incompatibility (e.g. cell sizes 1.75 vs 2.0),
and it never raises this error on compatible configurations; but for an
`other` of an unrelated family the check is skipped. -/
theorem addData_incompatible_iff (A B : ADVMData) (p : Option Bool)
    (ha : WF A.config) (hb : WF B.config) :
    addData A B p = .error .incompatible ↔
      (compatB A.config B.config = false ∧ isInstanceOf B.family A.family = true) := by
  cases hcb : compatB A.config B.config with
  | true =>
      rw [addData_of_compat A B p ha hb hcb]
      cases haddm : addDataManager A.dm B.dm p with
      | ok m => simp [haddm, except_bind_ok]
      | error e =>
          have := addDataManager_error_ambiguous A.dm B.dm p e haddm
          subst this
          simp [haddm, except_bind_err]
  | false =>
      cases hio : isInstanceOf B.family A.family with
      | true =>
          simp only [addData, isCompatible_eq_compatB A.config B.config ha hb,
            except_bind_ok, hcb, hio]
          simp
      | false =>
          simp only [addData, isCompatible_eq_compatB A.config B.config ha hb,
            except_bind_ok, hcb, hio]
          cases haddm : addDataManager A.dm B.dm p with
          | ok m => simp [haddm, except_bind_ok]
          | error e =>
              have := addDataManager_error_ambiguous A.dm B.dm p e haddm
              subst this
              simp [haddm, except_bind_err]

/-- Witness for C1's theorem: two same-family containers whose
configurations differ only in cell size (1.75 vs 2.0) make `add_data` raise
the incompatible-data error. -/
theorem addData_incompatible_witness :
    addData cA1 cB1 none = .error .incompatible :=
  (addData_incompatible_iff cA1 cB1 none (by decide) (by decide)).mpr (by decide)

/-- Counterexample for C1 as stated: an Argonaut container and an SL3G
container with incompatible configurations (frequencies 1500 vs 3000) do NOT
raise the incompatible-data error, because `isinstance(other, type(self))`
is false across unrelated families. -/
theorem addData_cross_family_cex :
    compatB cA1.config cB2.config = false ∧
      isInstanceOf cB2.family cA1.family = false ∧
      raisesIncompatible (addData cA1 cB2 none) = false := by
  refine ⟨by decide, by decide, by decide⟩

/-- C3: for compatible containers that both hold a value at some shared
(timestamp, variable) pair, `add_data` with no duplicate policy raises the
concurrent-observation error instead of resolving silently, and with the
keep-current policy the merged container holds the left operand's value at
every such shared pair. -/
theorem addData_conflict_spec (A B : ADVMData)
    (ha : WF A.config) (hb : WF B.config)
    (hc : compatB A.config B.config = true)
    (hfA : FilteredDM A.dm) :
    ((∃ t v, hasCell A.dm t v = true ∧ hasCell B.dm t v = true) →
        addData A B none = .error .ambiguousMerge) ∧
    ∃ rA, addData A B (some true) = .ok rA ∧
      ∀ t v, hasCell A.dm t v = true → hasCell B.dm t v = true →
        lookupCell rA.dm t v = lookupCell A.dm t v := by
  constructor
  · rintro ⟨t, v, hA, hB⟩
    have hne : (conflictKeys A.dm B.dm).isEmpty = false := by
      obtain ⟨c, hcmem, hct, hcv⟩ := (hasCell_iff A.dm t v).mp hA
      have hmem : (t, v) ∈ conflictKeys A.dm B.dm := by
        refine List.mem_filter.mpr ⟨?_, by simpa [hct, hcv] using hB⟩
        exact List.mem_map.mpr ⟨c, hcmem, by rw [hct, hcv]⟩
      rcases hk : conflictKeys A.dm B.dm with _ | ⟨q, qs⟩
      · rw [hk] at hmem; simp at hmem
      · simp [List.isEmpty]
    rw [addData_of_compat A B none ha hb hc]
    simp [addDataManager, hne, except_bind_err]
  · refine ⟨mkADVMData A.family
      ⟨A.dm.cells ++ B.dm.cells.filter (fun c => !hasCell A.dm c.1 c.2.1),
       A.dm.origin ++ B.dm.origin⟩ A.config, ?_, ?_⟩
    · rw [addData_of_compat A B (some true) ha hb hc]
      simp [addDataManager, except_bind_ok]
    · intro t v hA _
      have hfilterA : A.dm.cells.filter (fun c => matchesAdvmColumn c.2.1) = A.dm.cells :=
        List.filter_eq_self.mpr hfA
      have hsome : (A.dm.cells.find? (fun c => c.1 == t && c.2.1 == v)).isSome := by
        rw [List.find?_isSome]
        obtain ⟨c, hcmem, hct, hcv⟩ := (hasCell_iff A.dm t v).mp hA
        exact ⟨c, hcmem, by simp [hct, hcv]⟩
      simp only [mkADVMData, lookupCell, List.filter_append, hfilterA]
      rw [find?_append_left _ _ _ hsome]

/-- Witness for C3's theorem: two compatible Argonaut containers both
holding a `Temp` value at timestamp 0 — merging without a policy raises the
concurrent-observation error, and merging with keep-current keeps the left
value. -/
theorem addData_conflict_witness :
    addData cA1 cB3 none = .error .ambiguousMerge ∧
      ∃ rA, addData cA1 cB3 (some true) = .ok rA ∧
        lookupCell rA.dm 0 "Temp" = lookupCell cA1.dm 0 "Temp" := by
  have h := addData_conflict_spec cA1 cB3 (by decide) (by decide) (by decide) (by decide)
  refine ⟨h.1 ⟨0, "Temp", by decide, by decide⟩, ?_⟩
  obtain ⟨rA, hok, hkeep⟩ := h.2
  exact ⟨rA, hok, hkeep 0 "Temp" (by decide) (by decide)⟩

/-- C4: for compatible containers with disjoint timestamp sets, merging in
either order succeeds and yields the same data cells and the same provenance
entries up to order; the operand order decides only the retained
configuration and concrete family, which are the left operand's. -/
theorem addData_comm_content (A B : ADVMData) (p : Option Bool)
    (ha : WF A.config) (hb : WF B.config)
    (hc : compatB A.config B.config = true)
    (hdis : ∀ t ∈ tsOf A.dm, t ∉ tsOf B.dm) :
    ∃ rA rB, addData A B p = .ok rA ∧ addData B A p = .ok rB ∧
      rA.dm.cells.Perm rB.dm.cells ∧ rA.dm.origin.Perm rB.dm.origin ∧
      rA.family = A.family ∧ rA.config = A.config ∧
      rB.family = B.family ∧ rB.config = B.config := by
  have hc' : compatB B.config A.config = true := (compatB_symm B.config A.config).trans hc
  have hdis' : ∀ t ∈ tsOf B.dm, t ∉ tsOf A.dm := fun t ht hta => hdis t hta ht
  refine ⟨mkADVMData A.family ⟨A.dm.cells ++ B.dm.cells, A.dm.origin ++ B.dm.origin⟩ A.config,
    mkADVMData B.family ⟨B.dm.cells ++ A.dm.cells, B.dm.origin ++ A.dm.origin⟩ B.config,
    ?_, ?_, ?_, ?_, rfl, rfl, rfl, rfl⟩
  · rw [addData_of_compat A B p ha hb hc, addDataManager_disjoint A.dm B.dm p hdis]
    rfl
  · rw [addData_of_compat B A p hb ha hc', addDataManager_disjoint B.dm A.dm p hdis']
    rfl
  · exact (List.perm_append_comm).filter _
  · exact (List.perm_append_comm).filter _

/-- Witness for C4's theorem: compatible Argonaut containers with
observations at timestamps 0 and 1 merge to order-equal content both ways,
and `A.add_data(B)` keeps A's configuration. -/
theorem addData_comm_content_witness :
    ∃ rA rB, addData cA1 cB4 none = .ok rA ∧ addData cB4 cA1 none = .ok rB ∧
      rA.dm.cells.Perm rB.dm.cells ∧ rA.dm.origin.Perm rB.dm.origin ∧
      rA.family = cA1.family ∧ rA.config = cA1.config ∧
      rB.family = cB4.family ∧ rB.config = cB4.config :=
  addData_comm_content cA1 cB4 none (by decide) (by decide) (by decide) (by decide)

/-- C6 (amended): constructing a container keeps exactly the dataset cells —
and exactly the provenance rows — whose variable fully matches the pattern
`Temp`, `Vbeam`, or `Cell` + two digits + (`Amp` or `SNR`) + one digit;
"Vertical Beam" and the per-cell velocity columns (`Vx`/`Vy` kinds) do not
match the pattern and are dropped. -/
theorem construct_filters_columns (fam : Family) (dm : DataManager) (cfg : Dict) :
    (∀ t var q, ((t, var, q) ∈ (mkADVMData fam dm cfg).dm.cells ↔
        ((t, var, q) ∈ dm.cells ∧ matchesAdvmColumn var = true))) ∧
    (∀ var org, ((var, org) ∈ (mkADVMData fam dm cfg).dm.origin ↔
        ((var, org) ∈ dm.origin ∧ matchesAdvmColumn var = true))) ∧
    matchesAdvmColumn "Temp" = true ∧ matchesAdvmColumn "Vbeam" = true ∧
    matchesAdvmColumn "Cell01Amp1" = true ∧ matchesAdvmColumn "Cell10SNR2" = true ∧
    matchesAdvmColumn "Cell01Vx1" = false ∧ matchesAdvmColumn "Cell01Vy2" = false ∧
    matchesAdvmColumn "Vertical Beam" = false := by
  refine ⟨?_, ?_, by decide, by decide, by decide, by decide, by decide, by decide, by decide⟩
  · intro t var q
    simp [mkADVMData, List.mem_filter]
  · intro var org
    simp [mkADVMData, List.mem_filter]

/-- Counterexample for C6 as stated: the column `Cell01Vx1` matches the
velocity pattern the claim describes, yet the constructor drops both the
column and its provenance row. -/
theorem construct_drops_velocity_cex :
    matchesAdvmColumnSpec "Cell01Vx1" = true ∧
      (mkADVMData .sl3g dmVx wCfg1).dm.cells = [] ∧
      (mkADVMData .sl3g dmVx wCfg1).dm.origin = [] := by
  refine ⟨by decide, by decide, by decide⟩

theorem option_bind_some {α β : Type} (a : α) (f : α → Option β) :
    ((some a : Option α) >>= f) = f a := rfl

theorem linspace_length (a b : ℚ) (n : ℕ) : (linspace a b n).length = n := by
  simp [linspace]

theorem linspace_getD (a s : ℚ) (n i : ℕ) (h : i < n) :
    (linspace a (a + ((n : ℚ) - 1) * s) n).getD i 0 = a + i * s := by
  have hlen : i < (linspace a (a + ((n : ℚ) - 1) * s) n).length := by
    simpa [linspace] using h
  rw [List.getD_eq_getElem _ _ hlen]
  simp only [linspace, List.getElem_map, List.getElem_range]
  have harg : a + ((n : ℚ) - 1) * s - a = ((n : ℚ) - 1) * s := by ring
  rw [harg]
  rcases Nat.lt_or_ge i 1 with hi | hi
  · interval_cases i
    simp
  · have hn : 2 ≤ n := by omega
    have hcast : (2 : ℚ) ≤ (n : ℚ) := by exact_mod_cast hn
    have hne : ((n : ℚ) - 1) ≠ 0 := by
      intro hz
      linarith
    rw [mul_div_cancel_left₀ _ hne]

/-- C5: on a container whose configuration holds numeric blanking distance
`b` and cell size `s` and cell count `n`, `get_cell_range` yields the column
labels `R001 .. R{n}` and one identical row per timestamp row of the data,
whose `i`-th entry (1-based) is `b + offset * s + (i - 1) * s`, with the
offset 0.5 for the Nortek, EZQ and Argonaut families, 1.0 for Aquadopp, and
1.5 for SL3G. -/
theorem cellRange_spec (c : ADVMData) (b s : ℚ) (n : ℕ)
    (hb : (lookupVal c.config "Blanking Distance").bind valueToQ = some b)
    (hs : (lookupVal c.config "Cell Size").bind valueToQ = some s)
    (hn : (lookupVal c.config "Number of Cells").bind valueToNat = some n) :
    ∃ row, containerCellRange c = some (colNames n, List.replicate (numRowsOf c.dm) row) ∧
      (colNames n).length = n ∧ row.length = n ∧
      ∀ i, i < n → row.getD i 0 = b + offsetFactor c.family * s + i * s := by
  have hcols : (colNames n).length = n := by simp [colNames]
  cases hfam : c.family with
  | nortek =>
      refine ⟨linspace (b + s / 2) (b + s / 2 + ((n : ℚ) - 1) * s) n, ?_, hcols,
        linspace_length _ _ _, ?_⟩
      · simp [containerCellRange, hb, hs, hn, option_bind_some, hfam, nortekCalcCellRange]
      · intro i hi
        rw [linspace_getD (b + s / 2) s n i hi, offsetFactor]
        ring
  | ezq =>
      refine ⟨linspace (b + s / 2) (b + s / 2 + ((n : ℚ) - 1) * s) n, ?_, hcols,
        linspace_length _ _ _, ?_⟩
      · simp [containerCellRange, hb, hs, hn, option_bind_some, hfam, ezqCalcCellRange]
      · intro i hi
        rw [linspace_getD (b + s / 2) s n i hi, offsetFactor]
        ring
  | aquadopp =>
      refine ⟨linspace (b + s) (b + s + ((n : ℚ) - 1) * s) n, ?_, hcols,
        linspace_length _ _ _, ?_⟩
      · simp [containerCellRange, hb, hs, hn, option_bind_some, hfam, aquadoppCalcCellRange]
      · intro i hi
        rw [linspace_getD (b + s) s n i hi, offsetFactor]
        ring
  | argonaut =>
      refine ⟨linspace (b + s / 2) (b + s / 2 + ((n : ℚ) - 1) * s) n, ?_, hcols,
        linspace_length _ _ _, ?_⟩
      · simp [containerCellRange, hb, hs, hn, option_bind_some, hfam, argonautCalcCellRange]
      · intro i hi
        rw [linspace_getD (b + s / 2) s n i hi, offsetFactor]
        ring
  | sl3g =>
      refine ⟨linspace (b + 1.5 * s) (b + 1.5 * s + ((n : ℚ) - 1) * s) n, ?_, hcols,
        linspace_length _ _ _, ?_⟩
      · simp [containerCellRange, hb, hs, hn, option_bind_some, hfam, sl3gCalcCellRange]
      · intro i hi
        rw [linspace_getD (b + 1.5 * s) s n i hi, offsetFactor]
        norm_num

/-- Witness for C5's theorem: a Nortek container with blanking distance 1.0,
cell size 7/4 and 10 cells has the stated cell-range table. -/
theorem cellRange_spec_witness :
    ∃ row, containerCellRange cN5 =
        some (colNames 10, List.replicate (numRowsOf cN5.dm) row) ∧
      (colNames 10).length = 10 ∧ row.length = 10 ∧
      ∀ i, i < 10 →
        row.getD i 0 = 1 + offsetFactor cN5.family * mkRat 7 4 + i * mkRat 7 4 :=
  cellRange_spec cN5 1 (mkRat 7 4) 10 (by decide) (by decide) (by decide)

end Advm
